import Mathlib

/-!
Shallow embedding of the solitaire engine and its rule based planners.

Sources: src/core.rs (card model and pile addresses), src/game.rs (game
engine), src/view.rs (the DEPOTS_AND_WASTE constant), src/ai/mod.rs (the
observer view and its incremental update), src/ai/greedy.rs and
src/ai/simple.rs (the two planners).

Embedding conventions:
- Rust Vec piles keep their top card at the end; here every pile is a
  List with the top card at the HEAD, so Vec push, pop and last become
  cons, tail and head, and split_off of the last n cards becomes take n
  paired with drop n.
- The Rust Value newtype over u8 is modelled as a plain Nat; the engine
  only ever constructs values in 1..13. u8 subtraction on values appears
  only as value - 1 on values that are at least 1 and is modelled by Nat
  subtraction; u32 saturating_sub on the score is exactly Nat subtraction.
- Fallible engine operations return a PRes paired with the next engine
  state; PRes.panic marks control paths on which the Rust code panics
  (out of bounds indexing, unwrap or expect of None, assert failures).
  On every panic path the returned engine state is the state at the
  moment of the panic, which is always the unmodified input state.
- The fixed arrays of 7 columns and 4 foundations are modelled as
  functions out of Fin 7 and Fin 4.
-/

namespace Solitaire

/-- Suit of a playing card, from core.rs. -/
inductive Suit
  | Hearts
  | Diamonds
  | Clubs
  | Spades
deriving DecidableEq

/-- Color of a card, red or black, from core.rs. -/
inductive Color
  | Red
  | Black
deriving DecidableEq

/-- Suit::color from core.rs: hearts and diamonds are red, clubs and spades
are black. -/
def Suit.color : Suit → Color
  | .Hearts => .Red
  | .Diamonds => .Red
  | .Clubs => .Black
  | .Spades => .Black

/-- A card in play, from game.rs: suit, value and whether it is face up. -/
structure Card where
  suit : Suit
  value : Nat
  faceup : Bool
deriving DecidableEq

/-- Names of all addressable piles, from core.rs (identical enum in
view.rs). -/
inductive Addr
  | Waste
  | Foundation1
  | Foundation2
  | Foundation3
  | Foundation4
  | Depot1
  | Depot2
  | Depot3
  | Depot4
  | Depot5
  | Depot6
  | Depot7
deriving DecidableEq

/-- Addr::is_depot from core.rs. -/
def Addr.is_depot : Addr → Bool
  | .Depot1 | .Depot2 | .Depot3 | .Depot4 | .Depot5 | .Depot6 | .Depot7 => true
  | .Foundation1 | .Foundation2 | .Foundation3 | .Foundation4 | .Waste => false

/-- Addr::is_foundation from core.rs. -/
def Addr.is_foundation : Addr → Bool
  | .Foundation1 | .Foundation2 | .Foundation3 | .Foundation4 => true
  | .Depot1 | .Depot2 | .Depot3 | .Depot4 | .Depot5 | .Depot6 | .Depot7 | .Waste => false

/-- Addr::is_waste from core.rs. -/
def Addr.is_waste : Addr → Bool
  | .Waste => true
  | _ => false

/-- The index of a foundation address into the foundations array, as
computed by Addr::index in core.rs. Addr::index is only ever used under an
is_foundation guard when indexing foundations; on the other addresses this
helper returns a junk value that no modelled code path reads. -/
def Addr.fIdx : Addr → Fin 4
  | .Foundation1 => 0
  | .Foundation2 => 1
  | .Foundation3 => 2
  | .Foundation4 => 3
  | _ => 0

/-- The index of a depot address into the depots array, as computed by
Addr::index in core.rs. Addr::index is only ever used under an is_depot
guard when indexing depots; on the other addresses this helper returns a
junk value that no modelled code path reads. -/
def Addr.dIdx : Addr → Fin 7
  | .Depot1 => 0
  | .Depot2 => 1
  | .Depot3 => 2
  | .Depot4 => 3
  | .Depot5 => 4
  | .Depot6 => 5
  | .Depot7 => 6
  | _ => 0

/-- Addr::FOUNDATIONS from core.rs. -/
def Addr.FOUNDATIONS : List Addr :=
  [.Foundation1, .Foundation2, .Foundation3, .Foundation4]

/-- Addr::DEPOTS from core.rs. -/
def Addr.DEPOTS : List Addr :=
  [.Depot1, .Depot2, .Depot3, .Depot4, .Depot5, .Depot6, .Depot7]

/-- DEPOTS_AND_WASTE from view.rs (also Addr::DEPOTS_AND_WASTE in
core.rs): the seven depots followed by the waste. -/
def DEPOTS_AND_WASTE : List Addr :=
  [.Depot1, .Depot2, .Depot3, .Depot4, .Depot5, .Depot6, .Depot7, .Waste]

/-- The Action enum from game.rs. The Rust field `from` of Move is spelled
`frm` because `from` is a Lean keyword. -/
inductive Action
  | Take
  | Move (frm : Addr) (dst : Addr) (n : Nat)
  | Turnover
  | Reveal (a : Addr)
  | Quit
deriving DecidableEq

/-- The State flag from game.rs: running, lost (Fail) or won. -/
inductive State
  | Running
  | Fail
  | Win
deriving DecidableEq

/-- The MoveError enum from game.rs. -/
inductive MoveError
  | WithDescription (s : String)
  | NoCardToMove
  | Unspecified
deriving DecidableEq

/-- Outcome of one fallible engine operation: success, a returned
MoveError, or a Rust panic (out of bounds index, unwrap of None, ...). -/
inductive PRes (α : Type)
  | panic
  | err (e : MoveError)
  | ok (a : α)
deriving DecidableEq

/-- Map the success value of a PRes. -/
def PRes.map (f : α → β) : PRes α → PRes β
  | .panic => .panic
  | .err e => .err e
  | .ok a => .ok (f a)

/-- The GameEngine struct from game.rs. Piles store their top card at the
head of the list (see the embedding conventions above). -/
structure GameEngine where
  talon : List Card
  waste : List Card
  columns : Fin 7 → List Card
  foundations : Fin 4 → List Card
  state : State
  current_score : Nat
deriving DecidableEq

/-- GameEngine::score from game.rs. -/
def GameEngine.score (g : GameEngine) : Nat := g.current_score

/-- GameEngine::is_running from game.rs. -/
def GameEngine.is_running (g : GameEngine) : Bool := g.state == .Running

/-- GameEngine::is_won from game.rs. -/
def GameEngine.is_won (g : GameEngine) : Bool := g.state == .Win

/-- GameEngine::score_action from game.rs, as a function from the action
and the current score yielding the new score. u32 saturating_sub is Nat
subtraction. -/
def score_action (action : Action) (s : Nat) : Nat :=
  match action with
  | .Take => s
  | .Move frm dst _ =>
      if frm.is_waste && dst.is_foundation then s + 10
      else if frm.is_waste && dst.is_depot then s + 5
      else if frm.is_depot && dst.is_foundation then s + 10
      else if frm.is_foundation && dst.is_depot then s - 15
      else s
  | .Reveal _ => s + 5
  | .Turnover => s - 100
  | .Quit => s

/-- GameEngine::pile from game.rs: the pile at a given address. -/
def GameEngine.pile (g : GameEngine) : Addr → List Card
  | .Waste => g.waste
  | .Depot1 => g.columns 0
  | .Depot2 => g.columns 1
  | .Depot3 => g.columns 2
  | .Depot4 => g.columns 3
  | .Depot5 => g.columns 4
  | .Depot6 => g.columns 5
  | .Depot7 => g.columns 6
  | .Foundation1 => g.foundations 0
  | .Foundation2 => g.foundations 1
  | .Foundation3 => g.foundations 2
  | .Foundation4 => g.foundations 3

/-- GameEngine::pile_mut from game.rs, as a functional update of the pile
at a given address. -/
def GameEngine.setPile (g : GameEngine) (a : Addr) (p : List Card) : GameEngine :=
  match a with
  | .Waste => { g with waste := p }
  | .Depot1 => { g with columns := Function.update g.columns 0 p }
  | .Depot2 => { g with columns := Function.update g.columns 1 p }
  | .Depot3 => { g with columns := Function.update g.columns 2 p }
  | .Depot4 => { g with columns := Function.update g.columns 3 p }
  | .Depot5 => { g with columns := Function.update g.columns 4 p }
  | .Depot6 => { g with columns := Function.update g.columns 5 p }
  | .Depot7 => { g with columns := Function.update g.columns 6 p }
  | .Foundation1 => { g with foundations := Function.update g.foundations 0 p }
  | .Foundation2 => { g with foundations := Function.update g.foundations 1 p }
  | .Foundation3 => { g with foundations := Function.update g.foundations 2 p }
  | .Foundation4 => { g with foundations := Function.update g.foundations 3 p }

/-- GameEngine::take from game.rs: pop the top card of the talon onto the
waste, face up, and return its suit and value. -/
def GameEngine.take (g : GameEngine) : PRes (Suit × Nat) × GameEngine :=
  match g.talon with
  | [] => (.err .Unspecified, g)
  | c :: rest =>
      (.ok (c.suit, c.value),
       { g with talon := rest, waste := { c with faceup := true } :: g.waste })

/-- GameEngine::turnover from game.rs: if the talon is empty and the waste
is not, the waste becomes the new talon, reversed and all face down. -/
def GameEngine.turnover (g : GameEngine) : PRes Unit × GameEngine :=
  match g.talon with
  | _ :: _ => (.err .Unspecified, g)
  | [] =>
    match g.waste with
    | [] => (.err .Unspecified, g)
    | _ :: _ =>
        (.ok (),
         { g with waste := [],
                  talon := (g.waste.map (fun c => { c with faceup := false })).reverse })

/-- Helper for GameEngine::reveal: flip the top card of column i if it
exists and is face down. -/
def GameEngine.revealCol (g : GameEngine) (i : Fin 7) : PRes (Suit × Nat) × GameEngine :=
  match g.columns i with
  | [] => (.err .Unspecified, g)
  | c :: rest =>
      if c.faceup then (.err .Unspecified, g)
      else
        (.ok (c.suit, c.value),
         { g with columns := Function.update g.columns i ({ c with faceup := true } :: rest) })

/-- GameEngine::reveal from game.rs: reveal the top card of a depot. -/
def GameEngine.reveal (g : GameEngine) (addr : Addr) : PRes (Suit × Nat) × GameEngine :=
  match addr with
  | .Waste | .Foundation1 | .Foundation2 | .Foundation3 | .Foundation4 =>
      (.err (.WithDescription ("Cannot reveal cards in this pile")), g)
  | .Depot1 => g.revealCol 0
  | .Depot2 => g.revealCol 1
  | .Depot3 => g.revealCol 2
  | .Depot4 => g.revealCol 3
  | .Depot5 => g.revealCol 4
  | .Depot6 => g.revealCol 5
  | .Depot7 => g.revealCol 6

/-- GameEngine::move_to_foundation from game.rs. Note that the source
never checks whether the moved card is face up. The win check reads the
foundations after both pile mutations, exactly as the source does. -/
def GameEngine.move_to_foundation (g : GameEngine) (frm dst : Addr) :
    PRes Unit × GameEngine :=
  match (g.pile frm).head? with
  | none => (.err .NoCardToMove, g)
  | some card_to_move =>
    if card_to_move.value == 1 && (g.pile dst).isEmpty then
      let g1 := g.setPile frm (g.pile frm).tail
      let g2 := g1.setPile dst (card_to_move :: g1.pile dst)
      (.ok (), g2)
    else if card_to_move.value == 1 then
      (.err (.WithDescription ("Cannot place ace on non-empty slot")), g)
    else
      match (g.pile dst).head? with
      | some c =>
        if c.suit == card_to_move.suit && card_to_move.value == c.value + 1 then
          let g1 := g.setPile frm (g.pile frm).tail
          let g2 := g1.setPile dst (card_to_move :: g1.pile dst)
          let g3 :=
            if (List.finRange 4).all (fun i => (g2.foundations i).length == 13) then
              { g2 with state := .Win }
            else g2
          (.ok (), g3)
        else
          (.err (.WithDescription
            ("Cannot place card on top of non-matching suit or non-one-lower value")), g)
      | none => (.err (.WithDescription ("Cannot place non-ace on empty slot")), g)

/-- GameEngine::move_to_depot from game.rs. The source reads the base card
of the moved run as pile[n_skip] with n_skip = len - n; with the top at
the head of the list that is the last element of take n. When n = 0 that
Rust index equals the pile length and the indexing panics; the getLast? of
the empty take models exactly that. -/
def GameEngine.move_to_depot (g : GameEngine) (frm dst : Addr) (n : Nat) :
    PRes Unit × GameEngine :=
  if (g.pile frm).length < n then (.err .Unspecified, g)
  else if ((g.pile frm).take n).any (fun c => !c.faceup) then (.err .Unspecified, g)
  else
    match ((g.pile frm).take n).getLast? with
    | none => (.panic, g)
    | some base_card =>
      if base_card.value == 13 && (g.pile dst).head?.isNone then
        let g1 := g.setPile frm ((g.pile frm).drop n)
        let g2 := g1.setPile dst ((g.pile frm).take n ++ g1.pile dst)
        (.ok (), g2)
      else
        match (g.pile dst).head? with
        | some c =>
          if !(base_card.suit.color == c.suit.color)
              && base_card.value == c.value - 1 && c.faceup then
            let g1 := g.setPile frm ((g.pile frm).drop n)
            let g2 := g1.setPile dst ((g.pile frm).take n ++ g1.pile dst)
            (.ok (), g2)
          else (.err .Unspecified, g)
        | none => (.err .Unspecified, g)

/-- GameEngine::move_cards from game.rs. -/
def GameEngine.move_cards (g : GameEngine) (frm dst : Addr) (n : Nat) :
    PRes Unit × GameEngine :=
  if (frm.is_waste || frm.is_foundation) && n != 1 then (.err .Unspecified, g)
  else
    match dst with
    | .Waste => (.err .Unspecified, g)
    | .Foundation1 | .Foundation2 | .Foundation3 | .Foundation4 =>
        if n != 1 then (.err .Unspecified, g)
        else g.move_to_foundation frm dst
    | .Depot1 | .Depot2 | .Depot3 | .Depot4 | .Depot5 | .Depot6 | .Depot7 =>
        g.move_to_depot frm dst n

/-- GameEngine::quit from game.rs: set the state flag Fail, always Ok. -/
def GameEngine.quit (g : GameEngine) : PRes Unit × GameEngine :=
  (.ok (), { g with state := .Fail })

/-- The match inside GameEngine::act from game.rs, before the score
update. -/
def GameEngine.act_raw (g : GameEngine) (action : Action) :
    PRes (Option (Suit × Nat)) × GameEngine :=
  match action with
  | .Take => let p := g.take; (p.1.map some, p.2)
  | .Move a1 a2 k => let p := g.move_cards a1 a2 k; (p.1.map (fun _ => none), p.2)
  | .Reveal a => let p := g.reveal a; (p.1.map some, p.2)
  | .Quit => let p := g.quit; (p.1.map (fun _ => none), p.2)
  | .Turnover => let p := g.turnover; (p.1.map (fun _ => none), p.2)

/-- GameEngine::act from game.rs: run the action and, only on success,
apply the score update. -/
def GameEngine.act (g : GameEngine) (action : Action) :
    PRes (Option (Suit × Nat)) × GameEngine :=
  match g.act_raw action with
  | (.ok r, g1) => (.ok r, { g1 with current_score := score_action action g1.current_score })
  | other => other

/-- build_depot from GameEngine::deal in game.rs: a dealt column holds the
next n cards of the deck face down, except the last dealt card which is
revealed. With the top at the head, the column is the reversed slice with
its head revealed. -/
def buildDepot (slice : List Card) : List Card :=
  match slice.reverse with
  | [] => []
  | c :: rest => { c with faceup := true } :: rest

/-- GameEngine::deal from game.rs, parameterized by the already shuffled
deck (the source obtains it from shuffled_deck(seed), whose rand based
shuffle is an external collaborator producing some permutation of the full
deck; see fullDeck). Column i receives the next i cards, the remainder is
the talon. -/
def dealFrom (deck : List Card) : GameEngine :=
  { talon := (deck.drop 28).reverse
    waste := []
    columns := fun i =>
      match i with
      | 0 => buildDepot (deck.take 1)
      | 1 => buildDepot ((deck.drop 1).take 2)
      | 2 => buildDepot ((deck.drop 3).take 3)
      | 3 => buildDepot ((deck.drop 6).take 4)
      | 4 => buildDepot ((deck.drop 10).take 5)
      | 5 => buildDepot ((deck.drop 15).take 6)
      | 6 => buildDepot ((deck.drop 21).take 7)
    foundations := fun _ => []
    state := .Running
    current_score := 0 }

/-- The unshuffled 52 card deck built by shuffled_deck in game.rs before
shuffling: for each suit in declaration order Hearts, Clubs, Diamonds,
Spades, the values 1..13, all face down. -/
def fullDeck : List Card :=
  ([Suit.Hearts, Suit.Clubs, Suit.Diamonds, Suit.Spades]).flatMap
    (fun s => (List.range' 1 13).map (fun v => { suit := s, value := v, faceup := false }))

/-- The CardView enum from core.rs / ai/mod.rs: a face up card with suit
and value, or an opaque face down marker. -/
inductive CardView
  | FaceUp (s : Suit) (v : Nat)
  | FaceDown
deriving DecidableEq

/-- The From Card for CardView conversion from game.rs. -/
def Card.toView (c : Card) : CardView :=
  if c.faceup then .FaceUp c.suit c.value else .FaceDown

/-- The SolitaireObserver struct from ai/mod.rs: talon size, the waste as
suit and value pairs (top at the head here), the four foundation top
cards, and the seven depot piles as CardViews (top at the head here). -/
structure SolitaireObserver where
  talon_size : Nat
  waste : List (Suit × Nat)
  foundation_tops : Fin 4 → Option (Suit × Nat)
  depots : Fin 7 → List CardView
deriving DecidableEq

/-- GameEngine::observe from ai/mod.rs / game.rs: project the engine state
onto the partial view. -/
def GameEngine.observe (g : GameEngine) : SolitaireObserver :=
  { talon_size := g.talon.length
    waste := g.waste.map (fun c => (c.suit, c.value))
    foundation_tops := fun i => (g.foundations i).head?.map (fun c => (c.suit, c.value))
    depots := fun i => (g.columns i).map Card.toView }

/-- SolitaireObserver::is_won from ai/mod.rs: every foundation top is a
King (value 13). -/
def SolitaireObserver.is_won (o : SolitaireObserver) : Bool :=
  (List.finRange 4).all (fun i =>
    match o.foundation_tops i with
    | some (_, v) => v == 13
    | none => false)

/-- SolitaireObserver::n_takeable_cards from ai/mod.rs: how many cards
could be picked up from an address, counting the face up run from the top
for a depot. -/
def SolitaireObserver.n_takeable_cards (o : SolitaireObserver) (addr : Addr) : Nat :=
  match addr with
  | .Waste => if o.waste.isEmpty then 0 else 1
  | .Foundation1 | .Foundation2 | .Foundation3 | .Foundation4 =>
      if (o.foundation_tops addr.fIdx).isSome then 1 else 0
  | .Depot1 | .Depot2 | .Depot3 | .Depot4 | .Depot5 | .Depot6 | .Depot7 =>
      ((o.depots addr.dIdx).takeWhile (fun c =>
        match c with
        | .FaceUp _ _ => true
        | .FaceDown => false)).length

/-- SolitaireObserver::card_at from ai/mod.rs: the card at a given address
and depth n counted from the top. The source reads pile[pile.len() - n]
for a depot and is only ever called with n at least 1 (for n = 0 that
index would be out of bounds); the n != 0 guard reflects that the modelled
call sites never pass 0. -/
def SolitaireObserver.card_at (o : SolitaireObserver) (addr : Addr) (n : Nat) :
    Option CardView :=
  if addr.is_waste && n == 1 then
    o.waste.head?.map (fun p => CardView.FaceUp p.1 p.2)
  else if addr.is_foundation && n == 1 then
    (o.foundation_tops addr.fIdx).map (fun p => CardView.FaceUp p.1 p.2)
  else if addr.is_depot then
    if n != 0 && n ≤ (o.depots addr.dIdx).length then (o.depots addr.dIdx).get? (n - 1)
    else none
  else none

/-- SolitaireObserver::update from ai/mod.rs: advance the view given an
action and its disclosed result. Returns none on the panic paths of the
source (unwrap or expect of None, the assert, and the catch-all
illegal-move panic). Note for the foundation-onto-depot branch: the
source line 148 assigns a decremented value into the result of unwrap(),
which is a temporary copy, so the stored foundation top is left
unchanged; the model reproduces that no-op. For Reveal the source indexes
depots by Addr::index() whatever the address class; only depot addresses
reach that branch in any modelled run, and dIdx agrees with Addr::index()
on depots. -/
def SolitaireObserver.update (o : SolitaireObserver) (action : Action)
    (res : Option (Suit × Nat)) : Option SolitaireObserver :=
  match action with
  | .Move frm dst n =>
    if frm.is_depot && dst.is_depot then
      -- split_off(len.saturating_sub(n)) removes the top min n len cards;
      -- with the top at the head this is take n and drop n
      let d := o.depots frm.dIdx
      let o1 := { o with depots := Function.update o.depots frm.dIdx (d.drop n) }
      some { o1 with depots := Function.update o1.depots dst.dIdx (d.take n ++ o1.depots dst.dIdx) }
    else if frm.is_depot && dst.is_foundation then
      if n != 1 then none
      else
        match (o.depots frm.dIdx).head? with
        | some (.FaceUp s v) =>
            some { o with
                   depots := Function.update o.depots frm.dIdx (o.depots frm.dIdx).tail,
                   foundation_tops := Function.update o.foundation_tops dst.fIdx (some (s, v)) }
        | _ => none
    else if frm.is_foundation && dst.is_depot then
      match o.foundation_tops frm.fIdx with
      | none => none
      | some card =>
          some { o with depots := (Function.update o.depots dst.dIdx
                   (CardView.FaceUp card.1 card.2 :: o.depots dst.dIdx)) }
    else if frm.is_waste && dst.is_depot && n == 1 then
      match o.waste.head? with
      | none => none
      | some card =>
          some { o with
                 waste := o.waste.tail,
                 depots := (Function.update o.depots dst.dIdx
                   (CardView.FaceUp card.1 card.2 :: o.depots dst.dIdx)) }
    else if frm.is_waste && dst.is_foundation && n == 1 then
      match o.waste.head? with
      | none => none
      | some card =>
          some { o with
                 waste := o.waste.tail,
                 foundation_tops := Function.update o.foundation_tops dst.fIdx (some card) }
    else none
  | .Take =>
    match res with
    | none => none
    | some r =>
        -- talon_size -= 1 on usize; in any synchronized view the size is
        -- at least 1, so Nat subtraction is faithful
        some { o with waste := r :: o.waste, talon_size := o.talon_size - 1 }
  | .Turnover => some { o with talon_size := o.waste.length, waste := [] }
  | .Quit => some o
  | .Reveal addr =>
    match res with
    | none => none
    | some r =>
      match (o.depots addr.dIdx).head? with
      | some .FaceDown =>
          some { o with depots := (Function.update o.depots addr.dIdx
                   (CardView.FaceUp r.1 r.2 :: (o.depots addr.dIdx).tail)) }
      | _ => none

/-- The hash input of the impl Hash for SolitaireObserver in ai/mod.rs:
the hasher receives talon_size, the waste, a sorted copy of the four
foundation tops and a sorted copy of the seven depot lists. A list sorted
by a total order is determined by, and determines, its multiset, so the
two sorted copies are modelled as multisets: two views feed the hasher
identical data exactly when their hashKeys are equal. -/
def SolitaireObserver.hashKey (o : SolitaireObserver) :
    Nat × List (Suit × Nat) × Multiset (Option (Suit × Nat)) × Multiset (List CardView) :=
  (o.talon_size, o.waste,
   Multiset.ofList (List.ofFn o.foundation_tops),
   Multiset.ofList (List.ofFn o.depots))

/-- The foundation building phase shared verbatim by
GreedyAi::suggest_actions (greedy.rs, pushed with priority 10) and
SimpleAi::suggest_actions (simple.rs): for every depot or waste top card,
offer moving it onto a foundation whose top it continues (an Ace onto an
empty foundation, or the exact successor in the same suit). -/
def foundationBuildMoves (v : SolitaireObserver) : List Action :=
  DEPOTS_AND_WASTE.flatMap (fun frm =>
    match v.card_at frm 1 with
    | some (.FaceUp suit value) =>
        Addr.FOUNDATIONS.flatMap (fun dst =>
          match v.card_at dst 1 with
          | none => if value == 1 then [Action.Move frm dst 1] else []
          | some (.FaceUp dst_suit dst_value) =>
              if suit == dst_suit && value == dst_value + 1 then [Action.Move frm dst 1]
              else []
          | some .FaceDown => [])
    | _ => [])

/-- The reveal phase shared by both suggest_actions functions: offer a
Reveal for every depot whose top card is face down. The source iterates
the depots array with enumerate and pushes Reveal(Addr::DEPOTS[idx]);
iterating Addr::DEPOTS itself yields the same list because
Addr::DEPOTS[idx].dIdx = idx. -/
def revealMoves (v : SolitaireObserver) : List Action :=
  Addr.DEPOTS.flatMap (fun a =>
    match (v.depots a.dIdx).head? with
    | some .FaceDown => [Action.Reveal a]
    | _ => [])

/-- The priority that GreedyAi::suggest_actions assigns to a sequence
building move from frm onto dst (the let score expression in greedy.rs
lines 132..135). -/
def greedyMoveScore (frm dst : Addr) : Int :=
  if frm.is_foundation && dst.is_depot then -15
  else if frm.is_waste && dst.is_foundation then 10
  else if frm.is_waste && dst.is_depot then 5
  else 0

/-- One source address worth of the sequence building phase of
GreedyAi::suggest_actions: for every other depot as destination and every
run length 1..n_takeable_cards, offer the move when the run base fits the
destination (a King run onto an empty depot, or an alternating color,
exactly one lower run base onto the face up destination top). -/
def greedySeqFrom (v : SolitaireObserver) (frm : Addr) : List (Int × Action) :=
  let max_cards_to_move := v.n_takeable_cards frm
  if max_cards_to_move == 0 then []
  else
    (Addr.DEPOTS.filter (fun dst => dst != frm)).flatMap (fun dst =>
      (List.range' 1 max_cards_to_move).flatMap (fun n_moves =>
        match v.card_at frm n_moves with
        | some (.FaceUp suit value) =>
          match v.card_at dst 1 with
          | none =>
              if value == 13 then [(greedyMoveScore frm dst, Action.Move frm dst n_moves)]
              else []
          | some (.FaceUp suit2 value2) =>
              if !(suit.color == suit2.color) && value == value2 - 1 then
                [(greedyMoveScore frm dst, Action.Move frm dst n_moves)]
              else []
          | some .FaceDown => []
        | _ => []))

/-- The full sequence building phase of GreedyAi::suggest_actions. -/
def greedySeqMoves (v : SolitaireObserver) : List (Int × Action) :=
  DEPOTS_AND_WASTE.flatMap (fun frm => greedySeqFrom v frm)

/-- All (priority, action) pairs pushed into the BinaryHeap by
GreedyAi::suggest_actions (greedy.rs), in push order: foundation builds at
10, reveals at 5, sequence moves at their greedyMoveScore, Take at 0 when
the talon is non-empty, Turnover at -100 when the talon is empty and the
waste is not, and Quit at -200. -/
def greedySuggestionsP (v : SolitaireObserver) : List (Int × Action) :=
  ((foundationBuildMoves v).map (fun a => ((10 : Int), a)))
  ++ ((revealMoves v).map (fun a => ((5 : Int), a)))
  ++ greedySeqMoves v
  ++ (if v.talon_size != 0 then [((0 : Int), Action.Take)] else [])
  ++ (if v.waste.head?.isSome && v.talon_size == 0 then [((-100 : Int), Action.Turnover)] else [])
  ++ [((-200 : Int), Action.Quit)]

/-- GreedyAi::suggest_actions (greedy.rs): if the view is already won the
only candidate is Quit; otherwise the pushed candidates sorted by
descending priority. The Rust BinaryHeap leaves the relative order of
equal priorities unspecified (PrioritizedAction compares by priority
only); a stable insertion sort is one such deterministic order, and no
theorem below depends on the order among equal priorities. -/
def greedySuggestActions (v : SolitaireObserver) : List Action :=
  if v.is_won then [Action.Quit]
  else (List.insertionSort (fun a b : Int × Action => b.1 ≤ a.1) (greedySuggestionsP v)).map
    Prod.snd

/-- One source address worth of the sequence building phase of
SimpleAi::suggest_actions (simple.rs): as the greedy phase but without
priorities and with the two waste filters of simple.rs lines 74..85
applied first (never move a 2 off the waste, and never move a waste card
below 5 before the first completed talon pass). -/
def simpleSeqFrom (v : SolitaireObserver) (number_of_passes : Nat) (frm : Addr) :
    List Action :=
  let max_cards_to_move := v.n_takeable_cards frm
  if max_cards_to_move == 0 then []
  else
    (Addr.DEPOTS.filter (fun dst => dst != frm)).flatMap (fun dst =>
      if frm.is_waste &&
          (match v.waste.head? with
           | some (_, v2) => v2 == 2
           | none => false) then []
      else if frm.is_waste && dst.is_depot &&
          (match v.waste.head? with
           | some (_, value) => value < 5 && number_of_passes == 0
           | none => false) then []
      else
        (List.range' 1 max_cards_to_move).flatMap (fun n_moves =>
          match v.card_at frm n_moves with
          | some (.FaceUp suit value) =>
            match v.card_at dst 1 with
            | none => if value == 13 then [Action.Move frm dst n_moves] else []
            | some (.FaceUp suit2 value2) =>
                if !(suit.color == suit2.color) && value == value2 - 1 then
                  [Action.Move frm dst n_moves]
                else []
            | some .FaceDown => []
          | _ => []))

/-- The full sequence building phase of SimpleAi::suggest_actions. -/
def simpleSeqMoves (v : SolitaireObserver) (number_of_passes : Nat) : List Action :=
  DEPOTS_AND_WASTE.flatMap (fun frm => simpleSeqFrom v number_of_passes frm)

/-- SimpleAi::suggest_actions (simple.rs): candidates in generation
order: Quit alone if the view is won, otherwise foundation builds,
reveals, sequence moves (with the waste filters), Take, Turnover, Quit. -/
def simpleSuggestActions (v : SolitaireObserver) (number_of_passes : Nat) : List Action :=
  if v.is_won then [Action.Quit]
  else
    foundationBuildMoves v
    ++ revealMoves v
    ++ simpleSeqMoves v number_of_passes
    ++ (if v.talon_size != 0 then [Action.Take] else [])
    ++ (if v.waste.head?.isSome && v.talon_size == 0 then [Action.Turnover] else [])
    ++ [Action.Quit]

/-- The mutable state shared by GreedyAi (greedy.rs) and SimpleAi
(simple.rs): the seen (view, action) memory, the completed pass counter
and the tracked view. The Rust HashSet is modelled as a list queried by
structural equality, which is exactly the Eq the HashSet uses. -/
structure AiState where
  seen_state_action_combos : List (SolitaireObserver × Action)
  number_of_passes : Nat
  view : SolitaireObserver
deriving DecidableEq

/-- The selection loop shared by GreedyAi::calc_action (greedy.rs) and
the SimpleAi make_move (simple.rs): walk the suggested actions, skip any
already recorded against the current view, record the chosen pair, bump
the pass counter when the choice is Turnover, and return the choice.
Returns none when every candidate is exhausted (the source panics with
No action found there). -/
def calcActionLoop (st : AiState) : List Action → Option (Action × AiState)
  | [] => none
  | action :: rest =>
    if (st.view, action) ∈ st.seen_state_action_combos then calcActionLoop st rest
    else
      some (action,
        { st with
          seen_state_action_combos := (st.view, action) :: st.seen_state_action_combos,
          number_of_passes :=
            if action == Action.Turnover then st.number_of_passes + 1
            else st.number_of_passes })

/-- GreedyAi::calc_action from greedy.rs. -/
def greedyCalcAction (st : AiState) : Option (Action × AiState) :=
  calcActionLoop st (greedySuggestActions st.view)

/-- The SimpleAi make_move from simple.rs. -/
def simpleMakeMove (st : AiState) : Option (Action × AiState) :=
  calcActionLoop st (simpleSuggestActions st.view st.number_of_passes)

/-- A game lifetime of one planner, abstracted over the suggestion
generator sug (instantiated with the greedy and the simple generator):
a move step runs the selection loop and emits the (view, action) pair it
returned, an upd step replaces the tracked view (update_view touches
nothing but the view), as in the driver loop of main.rs. The emitted
pairs are collected in order. -/
inductive PlannerRun (sug : SolitaireObserver → Nat → List Action) :
    AiState → List (SolitaireObserver × Action) → AiState → Prop
  | nil (s : AiState) : PlannerRun sug s [] s
  | move (s s1 s2 : AiState) (a : Action) (out : List (SolitaireObserver × Action))
      (hstep : calcActionLoop s (sug s.view s.number_of_passes) = some (a, s1))
      (hrest : PlannerRun sug s1 out s2) :
      PlannerRun sug s ((s.view, a) :: out) s2
  | upd (s s2 : AiState) (v : SolitaireObserver) (out : List (SolitaireObserver × Action))
      (hrest : PlannerRun sug { s with view := v } out s2) :
      PlannerRun sug s out s2

/-- The greedy suggestion generator as fed to PlannerRun:
GreedyAi::suggest_actions ignores the pass counter. -/
def greedySug : SolitaireObserver → Nat → List Action :=
  fun v _ => greedySuggestActions v

/-- The simple suggestion generator as fed to PlannerRun. -/
def simpleSug : SolitaireObserver → Nat → List Action :=
  fun v p => simpleSuggestActions v p

/-- An engine state with every pile empty; any depot onto depot move with
card count 0 already panics here. -/
def emptyEngine : GameEngine :=
  { talon := []
    waste := []
    columns := fun _ => []
    foundations := fun _ => []
    state := .Running
    current_score := 0 }

/-- A small running engine: foundation 1 holds the ace and two of spades
(two of spades on top), depot 1 holds a face up three of hearts. Moving
the two of spades onto the three of hearts is a legal foundation onto
depot move. -/
def foundationMoveEngine : GameEngine :=
  { talon := []
    waste := []
    columns := Function.update (fun _ => []) 0
      [{ suit := .Hearts, value := 3, faceup := true }]
    foundations := Function.update (fun _ => []) 0
      [{ suit := .Spades, value := 2, faceup := true },
       { suit := .Spades, value := 1, faceup := true }]
    state := .Running
    current_score := 0 }

/-- A shuffled deck whose first three cards are the ace, three and two of
hearts, followed by the remaining 49 cards of the full deck in deal
order. Dealing from it puts the face up ace of hearts alone in depot 1
and the face down three of hearts under the face up two of hearts in
depot 2. -/
def bugDeck : List Card :=
  [{ suit := .Hearts, value := 1, faceup := false },
   { suit := .Hearts, value := 3, faceup := false },
   { suit := .Hearts, value := 2, faceup := false }]
  ++ fullDeck.filter (fun c =>
      !(c.suit == Suit.Hearts && (c.value == 1 || c.value == 2 || c.value == 3)))

/-- The deal of bugDeck. -/
def bugG0 : GameEngine := dealFrom bugDeck

/-- bugG0 after moving the ace of hearts from depot 1 onto foundation 1. -/
def bugG1 : GameEngine := (bugG0.act (.Move .Depot1 .Foundation1 1)).2

/-- bugG1 after moving the two of hearts from depot 2 onto foundation 1. -/
def bugG2 : GameEngine := (bugG1.act (.Move .Depot2 .Foundation1 1)).2

/-- bugG2 after moving the still face down three of hearts from depot 2
onto foundation 1 (the engine accepts this: move_to_foundation never
checks faceup). -/
def bugG3 : GameEngine := (bugG2.act (.Move .Depot2 .Foundation1 1)).2

/-- An observer view with every pile empty. -/
def emptyView : SolitaireObserver :=
  { talon_size := 0
    waste := []
    foundation_tops := fun _ => none
    depots := fun _ => [] }

/-- The deadlocked layout of the spec test property: a single face up
King of hearts in depot 1, all other piles empty. -/
def kingView : SolitaireObserver :=
  { emptyView with depots := Function.update (fun _ => []) 0 [CardView.FaceUp .Hearts 13] }

/-- A genuinely deadlocked layout: a single face up five of hearts in
depot 1, all other piles empty. No foundation build, reveal, sequence
move, take or turnover is available, so Quit is the only candidate. -/
def fiveView : SolitaireObserver :=
  { emptyView with depots := Function.update (fun _ => []) 0 [CardView.FaceUp .Hearts 5] }

/-- A view whose foundations all show kings (so is_won) while depot 2
still has a face up queen of clubs that would fit the face up king of
hearts in depot 1. -/
def wonView : SolitaireObserver :=
  { talon_size := 0
    waste := []
    foundation_tops := fun i =>
      match i with
      | 0 => some (.Hearts, 13)
      | 1 => some (.Diamonds, 13)
      | 2 => some (.Clubs, 13)
      | 3 => some (.Spades, 13)
    depots := Function.update (Function.update (fun _ => []) 0 [CardView.FaceUp .Hearts 13]) 1
      [CardView.FaceUp .Clubs 12] }

/-- The test scenario of greedy.rs: a face up king of hearts in depot 1
and a face up queen of clubs in depot 2, everything else empty. -/
def queenKingView : SolitaireObserver :=
  { emptyView with
    depots := Function.update (Function.update (fun _ => []) 0 [CardView.FaceUp .Hearts 13]) 1
      [CardView.FaceUp .Clubs 12] }

/-- A view with a seven of spades on the waste and a face up eight of
hearts in depot 1, so that moving the waste card onto depot 1 is a
candidate of the simple planner. -/
def wasteSevenView : SolitaireObserver :=
  { emptyView with
    talon_size := 1
    waste := [(.Spades, 7)]
    depots := Function.update (fun _ => []) 0 [CardView.FaceUp .Hearts 8] }

/-- Two views that differ only by swapping the contents of depots 1 and
2: the first of a pair used for the hash and equality comparison. -/
def permView1 : SolitaireObserver :=
  { emptyView with
    depots := Function.update (Function.update (fun _ => []) 0 [CardView.FaceUp .Hearts 13]) 1
      [CardView.FaceUp .Clubs 12, CardView.FaceDown] }

/-- permView1 with the contents of depots 1 and 2 exchanged. -/
def permView2 : SolitaireObserver :=
  { emptyView with
    depots := Function.update (Function.update (fun _ => []) 0
      [CardView.FaceUp .Clubs 12, CardView.FaceDown]) 1 [CardView.FaceUp .Hearts 13] }

/-- The destination test of the sequence building phase (greedy.rs lines
141..154, identical in simple.rs): a run whose base card has the given
suit and value fits dst when dst is empty and the base is a King, or when
the dst top is face up, of the opposite color and exactly one higher. -/
def destFits (v : SolitaireObserver) (dst : Addr) (suit : Suit) (value : Nat) : Bool :=
  match v.card_at dst 1 with
  | none => value == 13
  | some (.FaceUp suit2 value2) => !(suit.color == suit2.color) && value == value2 - 1
  | some .FaceDown => false

/-- Replace only the state flag of an engine. -/
def setGState (g : GameEngine) (s : State) : GameEngine := { g with state := s }

/-- Forget the state flag of an engine (normalize it to Running): two
engines with equal stripState agree on every pile and on the score. -/
def stripState (g : GameEngine) : GameEngine := { g with state := .Running }

/-! ## Theorems -/

/-- C1: the claim says that for every engine state and every action, act
either applies the action and returns Ok or returns an error and leaves
the state bit for bit unchanged, in particular for Move actions with card
count n = 0. The code instead panics on every depot onto depot Move with
n = 0: move_to_depot indexes pile[len - n] = pile[len], an out of bounds
index, before any validation can reject the move. Evaluated here at the
all-empty engine. -/
theorem act_move_zero_cards_panics :
    (emptyEngine.act (.Move .Depot1 .Depot2 0)).1 = .panic ∧
    emptyEngine.act (.Move .Depot1 .Depot2 0) = (.panic, emptyEngine) := by
  decide

/-- C2: the claim says that for every accepted action the incrementally
updated view equals the re-observed engine, including a Move from a
foundation to a depot. At foundationMoveEngine the engine accepts moving
the two of spades from foundation 1 onto the three of hearts in depot 1,
but SolitaireObserver::update leaves the foundation top unchanged
(ai/mod.rs line 148 assigns into a temporary copy), while the engine
observes the ace of spades as the new foundation top. -/
theorem update_foundation_to_depot_mismatch :
    (foundationMoveEngine.act (.Move .Foundation1 .Depot1 1)).1 = .ok none ∧
    (foundationMoveEngine.observe).update (.Move .Foundation1 .Depot1 1) none ≠
      some ((foundationMoveEngine.act (.Move .Foundation1 .Depot1 1)).2).observe ∧
    ((foundationMoveEngine.observe).update (.Move .Foundation1 .Depot1 1) none).map
        (fun o => o.foundation_tops 0) = some (some (.Spades, 2)) ∧
    (((foundationMoveEngine.act (.Move .Foundation1 .Depot1 1)).2).observe).foundation_tops 0 =
      some (.Spades, 1) := by
  decide

/-- C3: the claim says every reachable state keeps all foundation cards
face up. Dealing bugDeck (a permutation of the full deck) and playing
three engine-accepted moves puts the still face down three of hearts onto
foundation 1: move_to_foundation never checks faceup, so the invariant is
violated from a genuine deal. -/
theorem facedown_card_reaches_foundation :
    bugDeck.Perm fullDeck ∧
    (bugG0.act (.Move .Depot1 .Foundation1 1)).1 = .ok none ∧
    (bugG1.act (.Move .Depot2 .Foundation1 1)).1 = .ok none ∧
    (bugG2.act (.Move .Depot2 .Foundation1 1)).1 = .ok none ∧
    Card.mk .Hearts 3 false ∈ bugG3.foundations 0 := by
  decide

/-- C6 counterexample: in the layout with a single face up King in depot 1
and everything else empty, the claim says Quit is the only candidate of
each planner and is returned. Instead both planners offer moving the King
onto another empty depot, and the greedy planner returns such a move
rather than Quit. -/
theorem deadlock_king_not_quit :
    Action.Move .Depot1 .Depot2 1 ∈ greedySuggestActions kingView ∧
    greedySuggestActions kingView ≠ [Action.Quit] ∧
    (greedyCalcAction ⟨[], 0, kingView⟩).map Prod.fst ≠ some Action.Quit ∧
    Action.Move .Depot1 .Depot2 1 ∈ simpleSuggestActions kingView 0 := by
  decide

/-- C6 amended: in a genuinely deadlocked minimal layout, a single face up
five of hearts in depot 1 with everything else empty, the candidate list
of each planner is exactly the singleton Quit, and each planner returns
Quit. (With a King the layout is not deadlocked: King runs may move onto
the other empty columns.) -/
theorem deadlock_five_quit_only :
    greedySuggestActions fiveView = [Action.Quit] ∧
    simpleSuggestActions fiveView 0 = [Action.Quit] ∧
    (greedyCalcAction ⟨[], 0, fiveView⟩).map Prod.fst = some Action.Quit ∧
    (simpleMakeMove ⟨[], 0, fiveView⟩).map Prod.fst = some Action.Quit := by
  decide

/-- C5 counterexample: the claim quantifies over every view, but when the
view already shows all foundations complete, suggest_actions returns the
singleton Quit before enumerating any column building move. In wonView a
face up queen of clubs sits on depot 2 and would fit the face up king of
hearts on depot 1, yet the candidate enumeration does not contain the
move. -/
theorem greedy_coverage_fails_on_won_view :
    wonView.is_won = true ∧
    wonView.n_takeable_cards .Depot2 = 1 ∧
    wonView.card_at .Depot2 1 = some (.FaceUp .Clubs 12) ∧
    destFits wonView .Depot1 .Clubs 12 = true ∧
    Action.Move .Depot2 .Depot1 1 ∉ greedySuggestActions wonView := by
  decide

/-- C8 counterexample: permView1 and permView2 differ only by exchanging
the contents of depots 1 and 2. The hash input (hashKey) is identical,
but the derived equality of SolitaireObserver is positional and
distinguishes the two views, so permutations are not equivalent under
both hash and equality as the claim states. -/
theorem view_eq_not_permutation_invariant :
    permView1.hashKey = permView2.hashKey ∧ permView1 ≠ permView2 := by
  decide

theorem setPile_current_score (g : GameEngine) (a : Addr) (p : List Card) :
    (g.setPile a p).current_score = g.current_score := by
  cases a <;> rfl

theorem take_sound (g : GameEngine) :
    ((g.take).2).current_score = g.current_score ∧
    (∀ e g1, g.take = (.err e, g1) → g1 = g) := by
  unfold GameEngine.take
  cases g.talon <;> simp

theorem turnover_sound (g : GameEngine) :
    ((g.turnover).2).current_score = g.current_score ∧
    (∀ e g1, g.turnover = (.err e, g1) → g1 = g) := by
  unfold GameEngine.turnover
  cases g.talon <;> cases g.waste <;> simp

theorem revealCol_sound (g : GameEngine) (i : Fin 7) :
    ((g.revealCol i).2).current_score = g.current_score ∧
    (∀ e g1, g.revealCol i = (.err e, g1) → g1 = g) := by
  unfold GameEngine.revealCol
  rcases h : g.columns i with _ | ⟨c, rest⟩ <;> simp
  split <;> simp

theorem reveal_sound (g : GameEngine) (a : Addr) :
    ((g.reveal a).2).current_score = g.current_score ∧
    (∀ e g1, g.reveal a = (.err e, g1) → g1 = g) := by
  cases a <;>
    first
      | exact revealCol_sound g _
      | (unfold GameEngine.reveal; simp)

theorem mtf_sound (g : GameEngine) (frm dst : Addr) :
    ((g.move_to_foundation frm dst).2).current_score = g.current_score ∧
    (∀ e g1, g.move_to_foundation frm dst = (.err e, g1) → g1 = g) := by
  unfold GameEngine.move_to_foundation
  repeat' split
  all_goals simp [setPile_current_score]
  all_goals (split <;> simp [setPile_current_score])

theorem mtd_sound (g : GameEngine) (frm dst : Addr) (n : Nat) :
    ((g.move_to_depot frm dst n).2).current_score = g.current_score ∧
    (∀ e g1, g.move_to_depot frm dst n = (.err e, g1) → g1 = g) := by
  unfold GameEngine.move_to_depot
  repeat' split
  all_goals simp [setPile_current_score]

theorem move_cards_sound (g : GameEngine) (frm dst : Addr) (n : Nat) :
    ((g.move_cards frm dst n).2).current_score = g.current_score ∧
    (∀ e g1, g.move_cards frm dst n = (.err e, g1) → g1 = g) := by
  unfold GameEngine.move_cards
  repeat' split
  all_goals
    first
      | simp
      | exact mtf_sound g frm _
      | exact mtd_sound g frm _ n

theorem act_raw_sound (g : GameEngine) (a : Action) :
    ((g.act_raw a).2).current_score = g.current_score ∧
    (∀ e g1, g.act_raw a = (.err e, g1) → g1 = g) := by
  cases a <;>
    simp only [GameEngine.act_raw] <;>
    constructor
  case Take.left => exact (take_sound g).1
  case Take.right =>
    intro e g1 h
    rcases hr : g.take with ⟨r, g2⟩
    rw [hr] at h
    cases r <;> simp_all [PRes.map]
    exact (take_sound g).2 _ _ hr
  case Move.left => exact (move_cards_sound g _ _ _).1
  case Move.right =>
    intro e g1 h
    rcases hr : g.move_cards _ _ _ with ⟨r, g2⟩
    rw [hr] at h
    cases r <;> simp_all [PRes.map]
    exact (move_cards_sound g _ _ _).2 _ _ hr
  case Reveal.left => exact (reveal_sound g _).1
  case Reveal.right =>
    intro e g1 h
    rcases hr : g.reveal _ with ⟨r, g2⟩
    rw [hr] at h
    cases r <;> simp_all [PRes.map]
    exact (reveal_sound g _).2 _ _ hr
  case Quit.left => simp [GameEngine.quit]
  case Quit.right => intro e g1 h; simp [GameEngine.quit, PRes.map] at h
  case Turnover.left => exact (turnover_sound g).1
  case Turnover.right =>
    intro e g1 h
    rcases hr : g.turnover with ⟨r, g2⟩
    rw [hr] at h
    cases r <;> simp_all [PRes.map]
    exact (turnover_sound g).2 _ _ hr

/-- C4: on every successful act, and never on a failed one, the score
changes exactly as score_action prescribes: +10 for Waste onto Foundation
and for Depot onto Foundation, +5 for Waste onto Depot, -15 for
Foundation onto Depot, +5 for Reveal, -100 for Turnover, 0 for Take and
Quit; the subtractions are saturating so the score never goes below 0 (a
Turnover below 100 and a Foundation onto Depot below 15 give score 0). -/
theorem act_score_table :
    (∀ g : GameEngine, ∀ a r g1, g.act a = (.ok r, g1) →
        g1.current_score = score_action a g.current_score) ∧
    (∀ g : GameEngine, ∀ a e g1, g.act a = (.err e, g1) → g1 = g) ∧
    (∀ s : Nat, ∀ frm dst : Addr, ∀ n, frm.is_waste = true → dst.is_foundation = true →
        score_action (.Move frm dst n) s = s + 10) ∧
    (∀ s : Nat, ∀ frm dst : Addr, ∀ n, frm.is_depot = true → dst.is_foundation = true →
        score_action (.Move frm dst n) s = s + 10) ∧
    (∀ s : Nat, ∀ frm dst : Addr, ∀ n, frm.is_waste = true → dst.is_depot = true →
        score_action (.Move frm dst n) s = s + 5) ∧
    (∀ s : Nat, ∀ frm dst : Addr, ∀ n, frm.is_foundation = true → dst.is_depot = true →
        score_action (.Move frm dst n) s = s - 15) ∧
    (∀ s : Nat, ∀ a, score_action (.Reveal a) s = s + 5) ∧
    (∀ s : Nat, score_action .Turnover s = s - 100) ∧
    (∀ s : Nat, score_action .Take s = s) ∧
    (∀ s : Nat, score_action .Quit s = s) ∧
    (∀ s : Nat, s < 100 → score_action .Turnover s = 0) ∧
    (∀ s : Nat, ∀ frm dst : Addr, ∀ n, frm.is_foundation = true → dst.is_depot = true →
        s < 15 → score_action (.Move frm dst n) s = 0) := by
  refine ⟨?_, ?_, ?_, ?_, ?_, ?_, ?_, ?_, ?_, ?_, ?_, ?_⟩
  · intro g a r g1 h
    unfold GameEngine.act at h
    rcases hr : g.act_raw a with ⟨pr, g2⟩
    rw [hr] at h
    cases pr <;> simp_all
    have hs : g2.current_score = g.current_score := by
      have := (act_raw_sound g a).1
      rw [hr] at this
      exact this
    rw [← h.2, hs]
  · intro g a e g1 h
    unfold GameEngine.act at h
    rcases hr : g.act_raw a with ⟨pr, g2⟩
    rw [hr] at h
    cases pr <;> simp_all
    exact (act_raw_sound g a).2 _ _ hr
  · intro s frm dst n h1 h2
    cases frm <;> cases dst <;> simp_all [score_action, Addr.is_waste, Addr.is_foundation,
      Addr.is_depot]
  · intro s frm dst n h1 h2
    cases frm <;> cases dst <;> simp_all [score_action, Addr.is_waste, Addr.is_foundation,
      Addr.is_depot]
  · intro s frm dst n h1 h2
    cases frm <;> cases dst <;> simp_all [score_action, Addr.is_waste, Addr.is_foundation,
      Addr.is_depot]
  · intro s frm dst n h1 h2
    cases frm <;> cases dst <;> simp_all [score_action, Addr.is_waste, Addr.is_foundation,
      Addr.is_depot]
  · intro s a; rfl
  · intro s; rfl
  · intro s; rfl
  · intro s; rfl
  · intro s h; simp [score_action, Nat.sub_eq_zero_of_le (Nat.le_of_lt h)]
  · intro s frm dst n h1 h2 h3
    cases frm <;> cases dst <;>
      simp_all [score_action, Addr.is_waste, Addr.is_foundation, Addr.is_depot,
        Nat.sub_eq_zero_of_le (Nat.le_of_lt h3)]

/-- Witness for C4: the score table applied at concrete inputs. The
engine-accepted Foundation onto Depot move from foundationMoveEngine
keeps the saturated score at 0, the Waste onto Foundation row applied at
score 7 gives 17, and a Turnover at score 40 floors to 0. -/
theorem act_score_table_witness :
    ((foundationMoveEngine.act (.Move .Foundation1 .Depot1 1)).2).current_score =
      score_action (.Move .Foundation1 .Depot1 1) foundationMoveEngine.current_score ∧
    score_action (.Move .Waste .Foundation1 1) 7 = 17 ∧
    score_action .Turnover 40 = 0 := by
  refine ⟨?_, ?_, ?_⟩
  · exact act_score_table.1 foundationMoveEngine _ none _ (by decide)
  · simpa using act_score_table.2.2.1 7 .Waste .Foundation1 1 (by decide) (by decide)
  · exact act_score_table.2.2.2.2.2.2.2.2.2.2.1 40 (by decide)

theorem pile_setGState (g : GameEngine) (s : State) (a : Addr) :
    (setGState g s).pile a = g.pile a := by
  cases a <;> rfl

theorem setPile_setGState (g : GameEngine) (s : State) (a : Addr) (p : List Card) :
    (setGState g s).setPile a p = setGState (g.setPile a p) s := by
  cases a <;> rfl

theorem take_gstate (g : GameEngine) (s : State) :
    (setGState g s).take = ((g.take).1, setGState (g.take).2 s) := by
  unfold GameEngine.take
  rcases h : g.talon with _ | ⟨c, rest⟩ <;> simp [setGState, h]

theorem turnover_gstate (g : GameEngine) (s : State) :
    (setGState g s).turnover = ((g.turnover).1, setGState (g.turnover).2 s) := by
  unfold GameEngine.turnover
  rcases h1 : g.talon with _ | ⟨c, rest⟩ <;> rcases h2 : g.waste with _ | ⟨d, rest2⟩ <;>
    simp [setGState, h1, h2]

theorem revealCol_gstate (g : GameEngine) (s : State) (i : Fin 7) :
    (setGState g s).revealCol i = ((g.revealCol i).1, setGState (g.revealCol i).2 s) := by
  unfold GameEngine.revealCol setGState
  rcases h : g.columns i with _ | ⟨c, rest⟩ <;> simp [h] <;> split <;> rfl

theorem reveal_gstate (g : GameEngine) (s : State) (a : Addr) :
    (setGState g s).reveal a = ((g.reveal a).1, setGState (g.reveal a).2 s) := by
  cases a <;>
    first
      | exact revealCol_gstate g s _
      | rfl

theorem mtd_gstate (g : GameEngine) (s : State) (frm dst : Addr) (n : Nat) :
    (setGState g s).move_to_depot frm dst n =
      ((g.move_to_depot frm dst n).1, setGState (g.move_to_depot frm dst n).2 s) := by
  unfold GameEngine.move_to_depot
  simp only [pile_setGState]
  repeat' split
  all_goals simp [setPile_setGState, pile_setGState]

theorem stripState_setGState (g : GameEngine) (s : State) :
    stripState (setGState g s) = stripState g := rfl

theorem foundations_setGState (g : GameEngine) (s : State) :
    (setGState g s).foundations = g.foundations := rfl

theorem mtf_gstate (g : GameEngine) (s : State) (frm dst : Addr) :
    ((setGState g s).move_to_foundation frm dst).1 = (g.move_to_foundation frm dst).1 ∧
    stripState ((setGState g s).move_to_foundation frm dst).2 =
      stripState (g.move_to_foundation frm dst).2 := by
  unfold GameEngine.move_to_foundation
  simp only [pile_setGState, setPile_setGState, foundations_setGState]
  rcases hh : (g.pile frm).head? with _ | card <;> (try dsimp only)
  · exact ⟨rfl, rfl⟩
  · split_ifs with h1 h2 <;> try exact ⟨rfl, rfl⟩
    all_goals
      rcases hd : (g.pile dst).head? with _ | c <;>
        simp only [hd] <;> (try dsimp only) <;> (try split_ifs) <;>
        (refine ⟨?_, rfl⟩) <;> (first | rfl | trivial)

theorem move_cards_gstate (g : GameEngine) (s : State) (frm dst : Addr) (n : Nat) :
    ((setGState g s).move_cards frm dst n).1 = (g.move_cards frm dst n).1 ∧
    stripState ((setGState g s).move_cards frm dst n).2 =
      stripState (g.move_cards frm dst n).2 := by
  unfold GameEngine.move_cards
  repeat' split
  all_goals
    first
      | exact mtf_gstate g s frm _
      | (rw [mtd_gstate]; exact ⟨rfl, rfl⟩)
      | exact ⟨rfl, rfl⟩

/-- C10: act never reads the current status. For every engine state and
every replacement status, running any action on the status-replaced
engine gives the same result and the same piles and score (engines equal
after stripState) as on the original; moreover act(Quit) always succeeds
with Ok(None), unconditionally sets the status to Fail (Lost), and
is_won is false afterwards even if the game had been won before. -/
theorem act_ignores_state :
    (∀ g : GameEngine, ∀ s a,
        ((setGState g s).act a).1 = (g.act a).1 ∧
        stripState ((setGState g s).act a).2 = stripState ((g.act a).2)) ∧
    (∀ g : GameEngine, g.act .Quit = (.ok none, { g with state := .Fail })) ∧
    (∀ g : GameEngine, ((g.act .Quit).2).is_won = false) := by
  refine ⟨?_, ?_, ?_⟩
  · intro g s a
    have hscore : ∀ x y : GameEngine, stripState x = stripState y →
        x.current_score = y.current_score := by
      intro x y h
      have := congrArg GameEngine.current_score h
      simpa [stripState] using this
    cases a
    case Take =>
      unfold GameEngine.act GameEngine.act_raw
      dsimp only
      rw [take_gstate]
      rcases h : g.take with ⟨pr, g2⟩
      cases pr <;> simp [stripState, setGState, PRes.map]
    case Move frm dst n =>
      have h := move_cards_gstate g s frm dst n
      rcases h1 : (setGState g s).move_cards frm dst n with ⟨pr1, ga⟩
      rcases h2 : g.move_cards frm dst n with ⟨pr2, gb⟩
      rw [h1, h2] at h
      obtain ⟨hpr, hst⟩ := h
      dsimp at hpr hst
      cases hpr
      have hsc : ga.current_score = gb.current_score := hscore ga gb hst
      unfold GameEngine.act GameEngine.act_raw
      dsimp only
      rw [h1, h2]
      cases pr1
      · exact ⟨rfl, hst⟩
      · exact ⟨rfl, hst⟩
      · refine ⟨rfl, ?_⟩
        show stripState { ga with current_score := score_action (Action.Move frm dst n) ga.current_score } = stripState { gb with current_score := score_action (Action.Move frm dst n) gb.current_score }
        rw [hsc]
        exact congrArg (fun x => { x with current_score := score_action (Action.Move frm dst n) gb.current_score }) hst
    case Reveal a =>
      unfold GameEngine.act GameEngine.act_raw
      dsimp only
      rw [reveal_gstate]
      rcases h : g.reveal a with ⟨pr, g2⟩
      cases pr <;> simp [stripState, setGState, PRes.map]
    case Quit =>
      unfold GameEngine.act GameEngine.act_raw GameEngine.quit
      simp [stripState, setGState, PRes.map, score_action]
    case Turnover =>
      unfold GameEngine.act GameEngine.act_raw
      dsimp only
      rw [turnover_gstate]
      rcases h : g.turnover with ⟨pr, g2⟩
      cases pr <;> simp [stripState, setGState, PRes.map]
  · intro g
    unfold GameEngine.act GameEngine.act_raw GameEngine.quit
    simp [PRes.map, score_action]
  · intro g
    unfold GameEngine.act GameEngine.act_raw GameEngine.quit
    simp [PRes.map, score_action, GameEngine.is_won]

theorem calcActionLoop_spec (st : AiState) (l : List Action) (a : Action) (st1 : AiState)
    (h : calcActionLoop st l = some (a, st1)) :
    (st.view, a) ∉ st.seen_state_action_combos ∧
    st1.seen_state_action_combos = (st.view, a) :: st.seen_state_action_combos ∧
    st1.view = st.view := by
  induction l with
  | nil => simp [calcActionLoop] at h
  | cons b rest ih =>
    rw [calcActionLoop] at h
    by_cases hmem : (st.view, b) ∈ st.seen_state_action_combos
    · rw [if_pos hmem] at h
      exact ih h
    · rw [if_neg hmem] at h
      simp only [Option.some.injEq, Prod.mk.injEq] at h
      obtain ⟨hab, hst⟩ := h
      subst hab
      rw [← hst]
      exact ⟨hmem, rfl, rfl⟩

theorem plannerRun_spec (sug : SolitaireObserver → Nat → List Action) (s0 : AiState)
    (out : List (SolitaireObserver × Action)) (s1 : AiState)
    (h : PlannerRun sug s0 out s1) :
    out.Nodup ∧
    (∀ p ∈ out, p ∉ s0.seen_state_action_combos) ∧
    (∀ p ∈ out, p ∈ s1.seen_state_action_combos) ∧
    (∀ p ∈ s0.seen_state_action_combos, p ∈ s1.seen_state_action_combos) := by
  induction h with
  | nil s => simp
  | move s sa s2 a out hstep hrest ih =>
    obtain ⟨hnd, hfresh, hin, hmono⟩ := ih
    obtain ⟨hnotmem, hseen, hview⟩ := calcActionLoop_spec _ _ _ _ hstep
    refine ⟨?_, ?_, ?_, ?_⟩
    · refine List.nodup_cons.mpr ⟨?_, hnd⟩
      intro hc
      exact (hfresh _ hc) (by rw [hseen]; exact List.mem_cons_self _ _)
    · intro p hp
      rcases List.mem_cons.mp hp with rfl | hp2
      · exact hnotmem
      · intro hmem
        exact (hfresh _ hp2) (by rw [hseen]; exact List.mem_cons_of_mem _ hmem)
    · intro p hp
      rcases List.mem_cons.mp hp with rfl | hp2
      · exact hmono _ (by rw [hseen]; exact List.mem_cons_self _ _)
      · exact hin _ hp2
    · intro p hp
      exact hmono _ (by rw [hseen]; exact List.mem_cons_of_mem _ hp)
  | upd s s2 v out hrest ih =>
    exact ih

/-- C7: across a single game lifetime, neither planner ever returns the
same (view, action) pair twice: every run of the greedy or the simple
planner emits a duplicate free list of pairs; moreover the selection loop
returns only pairs not yet recorded against the current view and records
the returned pair in the seen set before returning. -/
theorem planner_never_repeats :
    (∀ s0 out s1, PlannerRun greedySug s0 out s1 → out.Nodup) ∧
    (∀ s0 out s1, PlannerRun simpleSug s0 out s1 → out.Nodup) ∧
    (∀ st l a st1, calcActionLoop st l = some (a, st1) →
      (st.view, a) ∉ st.seen_state_action_combos ∧
      (st.view, a) ∈ st1.seen_state_action_combos) := by
  refine ⟨?_, ?_, ?_⟩
  · intro s0 out s1 h
    exact (plannerRun_spec _ _ _ _ h).1
  · intro s0 out s1 h
    exact (plannerRun_spec _ _ _ _ h).1
  · intro st l a st1 h
    obtain ⟨h1, h2, _⟩ := calcActionLoop_spec _ _ _ _ h
    exact ⟨h1, by rw [h2]; exact List.mem_cons_self _ _⟩

/-- Witness for C7: a concrete one move greedy run from the deadlocked
five layout emits the duplicate free list [(fiveView, Quit)], and the
selection loop records that pair. -/
theorem planner_never_repeats_witness :
    ([((fiveView : SolitaireObserver), Action.Quit)]).Nodup ∧
    ((fiveView, Action.Quit) ∉ (⟨[], 0, fiveView⟩ : AiState).seen_state_action_combos ∧
     (fiveView, Action.Quit) ∈
       (⟨[(fiveView, Action.Quit)], 0, fiveView⟩ : AiState).seen_state_action_combos) := by
  constructor
  · exact planner_never_repeats.1 ⟨[], 0, fiveView⟩ _ _
      (PlannerRun.move ⟨[], 0, fiveView⟩ ⟨[(fiveView, Action.Quit)], 0, fiveView⟩
        ⟨[(fiveView, Action.Quit)], 0, fiveView⟩ Action.Quit [] (by decide)
        (PlannerRun.nil _))
  · exact planner_never_repeats.2.2 ⟨[], 0, fiveView⟩ (greedySuggestActions fiveView)
      Action.Quit ⟨[(fiveView, Action.Quit)], 0, fiveView⟩ (by decide)

theorem mem_foundationBuildMoves_shape (v : SolitaireObserver) (a : Action)
    (h : a ∈ foundationBuildMoves v) :
    ∃ frm dst, dst ∈ Addr.FOUNDATIONS ∧ a = .Move frm dst 1 := by
  unfold foundationBuildMoves at h
  rw [List.mem_flatMap] at h
  obtain ⟨frm, hfrm, hbody⟩ := h
  split at hbody
  case h_2 => simp at hbody
  case h_1 suit value heq =>
    rw [List.mem_flatMap] at hbody
    obtain ⟨dst, hdst, hinner⟩ := hbody
    refine ⟨frm, dst, hdst, ?_⟩
    repeat' split at hinner
    all_goals simp_all

theorem mem_revealMoves_shape (v : SolitaireObserver) (a : Action)
    (h : a ∈ revealMoves v) : ∃ d, a = .Reveal d := by
  unfold revealMoves at h
  rw [List.mem_flatMap] at h
  obtain ⟨d, hd, hbody⟩ := h
  split at hbody
  all_goals simp_all

theorem mem_simpleSeqFrom_shape (v : SolitaireObserver) (p : Nat) (frm : Addr) (a : Action)
    (h : a ∈ simpleSeqFrom v p frm) :
    ∃ dst n, dst ∈ Addr.DEPOTS ∧ a = .Move frm dst n := by
  unfold simpleSeqFrom at h
  by_cases hmax : (v.n_takeable_cards frm == 0) = true
  · rw [if_pos hmax] at h
    simp at h
  · rw [if_neg hmax] at h
    by_cases hf1 : (frm.is_waste &&
        (match v.waste.head? with
         | some (_, v2) => v2 == 2
         | none => false)) = true
    · simp only [hf1, if_true] at h
      simp at h
    · have heq1 := eq_false_of_ne_true hf1
      simp only [heq1, Bool.false_eq_true, if_false] at h
      rw [List.mem_flatMap] at h
      obtain ⟨dst, hdst, hbody⟩ := h
      have hdd : dst ∈ Addr.DEPOTS := (List.mem_filter.mp hdst).1
      by_cases hf2 : (frm.is_waste && dst.is_depot &&
          (match v.waste.head? with
           | some (_, value) => decide (value < 5) && p == 0
           | none => false)) = true
      · rw [if_pos hf2] at hbody
        simp at hbody
      · rw [if_neg hf2] at hbody
        rw [List.mem_flatMap] at hbody
        obtain ⟨n, hn, hinner⟩ := hbody
        refine ⟨dst, n, hdd, ?_⟩
        repeat' split at hinner
        all_goals simp_all

theorem mem_simpleSeqFrom_waste (v : SolitaireObserver) (p : Nat) (a : Action)
    (h : a ∈ simpleSeqFrom v p .Waste) :
    ∃ s val rest, v.waste = (s, val) :: rest ∧ val ≠ 2 ∧ (p = 0 → 5 ≤ val) := by
  unfold simpleSeqFrom at h
  by_cases hmax : (v.n_takeable_cards .Waste == 0) = true
  · rw [if_pos hmax] at h
    simp at h
  · rcases hw : v.waste with _ | ⟨⟨s, val⟩, rest⟩
    · exfalso
      apply hmax
      simp [SolitaireObserver.n_takeable_cards, hw]
    · rw [if_neg hmax] at h
      by_cases hf1 : (Addr.Waste.is_waste &&
          (match v.waste.head? with
           | some (_, v2) => v2 == 2
           | none => false)) = true
      · simp only [hf1, if_true] at h
        simp at h
      · have heq1 := eq_false_of_ne_true hf1
        simp only [heq1, Bool.false_eq_true, if_false] at h
        rw [List.mem_flatMap] at h
        obtain ⟨dst, hdst, hbody⟩ := h
        have hdd : dst ∈ Addr.DEPOTS := (List.mem_filter.mp hdst).1
        have hdepot : dst.is_depot = true := by
          simp only [Addr.DEPOTS, List.mem_cons, List.not_mem_nil, or_false] at hdd
          rcases hdd with rfl | rfl | rfl | rfl | rfl | rfl | rfl <;> rfl
        by_cases hf2 : (Addr.Waste.is_waste && dst.is_depot &&
            (match v.waste.head? with
             | some (_, value) => decide (value < 5) && p == 0
             | none => false)) = true
        · rw [if_pos hf2] at hbody
          simp at hbody
        · refine ⟨s, val, rest, rfl, ?_, ?_⟩
          · intro hval
            apply hf1
            simp [hw, hval, Addr.is_waste]
          · intro hp
            by_contra hlt
            apply hf2
            simp [hw, hdepot, hp, Addr.is_waste]
            exact Nat.lt_of_not_le hlt

/-- C9: for every view and pass count, whenever the Simple Planner
proposes moving a card from the waste into a column, the waste top is not
a 2, and if no Turnover has been returned yet (pass counter 0) the waste
top has rank at least 5; equivalently the planner never proposes moving a
2, nor a card below 5 before the first completed pass, from the waste
into a column. -/
theorem simple_waste_filters :
    ∀ (v : SolitaireObserver) (p : Nat) (dst : Addr) (n : Nat),
      Action.Move .Waste dst n ∈ simpleSuggestActions v p →
      dst.is_depot = true →
      ∃ s val rest, v.waste = (s, val) :: rest ∧ val ≠ 2 ∧ (p = 0 → 5 ≤ val) := by
  intro v p dst n h hdep
  unfold simpleSuggestActions at h
  split at h
  · simp at h
  · rw [List.mem_append, List.mem_append, List.mem_append, List.mem_append,
      List.mem_append] at h
    rcases h with ((((hf | hr) | hs) | ht) | hto) | hq
    · obtain ⟨frm, dst2, hdst2, heq⟩ := mem_foundationBuildMoves_shape v _ hf
      obtain ⟨rfl, rfl, rfl⟩ := Action.Move.inj heq
      exfalso
      simp only [Addr.FOUNDATIONS, List.mem_cons, List.not_mem_nil, or_false] at hdst2
      rcases hdst2 with rfl | rfl | rfl | rfl <;> simp [Addr.is_depot] at hdep
    · obtain ⟨d, heq⟩ := mem_revealMoves_shape v _ hr
      simp at heq
    · unfold simpleSeqMoves at hs
      rw [List.mem_flatMap] at hs
      obtain ⟨frm, hfrm, hbody⟩ := hs
      obtain ⟨dst2, n2, _, heq⟩ := mem_simpleSeqFrom_shape v p frm _ hbody
      obtain ⟨rfl, rfl, rfl⟩ := Action.Move.inj heq
      exact mem_simpleSeqFrom_waste v p _ hbody
    · split at ht <;> simp at ht
    · split at hto <;> simp at hto
    · simp at hq

/-- Witness for C9: at wasteSevenView the simple planner proposes moving
the waste seven onto depot 1, and the filters applied there give a waste
top that is neither a 2 nor below 5 at pass count 0. -/
theorem simple_waste_filters_witness :
    ∃ s val rest, wasteSevenView.waste = (s, val) :: rest ∧ val ≠ 2 ∧ ((0 : Nat) = 0 → 5 ≤ val) :=
  simple_waste_filters wasteSevenView 0 .Depot1 1 (by decide) (by decide)

/-- C5 amended: for every view that does not already show all foundations
complete, the greedy candidate enumeration covers every face up run of
size 1..n_takeable_cards from the waste or a column onto another column
whose destination fits (King onto empty, or alternating color one lower
onto the face up top): the move appears among the pushed candidates with
priority greedyMoveScore and in the final candidate list. The priority is
0 for column to column, -15 for Foundation to Depot, 10 for Waste to
Foundation and 5 for Waste to Depot, exactly the score expression of
greedy.rs. -/
theorem greedy_seq_coverage :
    (∀ (v : SolitaireObserver) (frm dst : Addr) (n : Nat) (s : Suit) (val : Nat),
      v.is_won = false →
      frm ∈ DEPOTS_AND_WASTE →
      dst ∈ Addr.DEPOTS →
      dst ≠ frm →
      1 ≤ n →
      n ≤ v.n_takeable_cards frm →
      v.card_at frm n = some (.FaceUp s val) →
      destFits v dst s val = true →
      ((greedyMoveScore frm dst, Action.Move frm dst n) ∈ greedySuggestionsP v ∧
       Action.Move frm dst n ∈ greedySuggestActions v)) ∧
    (∀ frm dst : Addr, frm.is_depot = true → dst.is_depot = true →
        greedyMoveScore frm dst = 0) ∧
    (∀ frm dst : Addr, frm.is_foundation = true → dst.is_depot = true →
        greedyMoveScore frm dst = -15) ∧
    (∀ frm dst : Addr, frm.is_waste = true → dst.is_foundation = true →
        greedyMoveScore frm dst = 10) ∧
    (∀ frm dst : Addr, frm.is_waste = true → dst.is_depot = true →
        greedyMoveScore frm dst = 5) := by
  refine ⟨?_, ?_, ?_, ?_, ?_⟩
  · intro v frm dst n s val hwon hfrm hdst hne hn1 hnk hcard hfits
    have hpair : (greedyMoveScore frm dst, Action.Move frm dst n) ∈ greedySeqFrom v frm := by
      unfold greedySeqFrom
      have hmax : ¬(v.n_takeable_cards frm == 0) = true := by
        simp only [beq_iff_eq]
        omega
      rw [if_neg hmax]
      rw [List.mem_flatMap]
      refine ⟨dst, List.mem_filter.mpr ⟨hdst, by simp [hne]⟩, ?_⟩
      rw [List.mem_flatMap]
      refine ⟨n, by rw [List.mem_range'_1]; omega, ?_⟩
      rw [hcard]
      unfold destFits at hfits
      rcases hd : v.card_at dst 1 with _ | cv
      · rw [hd] at hfits
        simp at hfits
        simp [hfits]
      · rcases cv with ⟨s2, v2⟩ | _
        · rw [hd] at hfits
          simp at hfits
          simp [hfits]
        · rw [hd] at hfits
          simp at hfits
    have hmemP : (greedyMoveScore frm dst, Action.Move frm dst n) ∈ greedySuggestionsP v := by
      unfold greedySuggestionsP
      rw [List.mem_append]
      left
      rw [List.mem_append]
      left
      rw [List.mem_append]
      left
      rw [List.mem_append]
      right
      unfold greedySeqMoves
      rw [List.mem_flatMap]
      exact ⟨frm, hfrm, hpair⟩
    refine ⟨hmemP, ?_⟩
    unfold greedySuggestActions
    rw [if_neg (by simp [hwon])]
    rw [List.mem_map]
    refine ⟨(greedyMoveScore frm dst, Action.Move frm dst n), ?_, rfl⟩
    exact (List.perm_insertionSort _ _).mem_iff.mpr hmemP
  · intro frm dst h1 h2
    cases frm <;> cases dst <;> simp_all [greedyMoveScore, Addr.is_depot, Addr.is_waste,
      Addr.is_foundation]
  · intro frm dst h1 h2
    cases frm <;> cases dst <;> simp_all [greedyMoveScore, Addr.is_depot, Addr.is_waste,
      Addr.is_foundation]
  · intro frm dst h1 h2
    cases frm <;> cases dst <;> simp_all [greedyMoveScore, Addr.is_depot, Addr.is_waste,
      Addr.is_foundation]
  · intro frm dst h1 h2
    cases frm <;> cases dst <;> simp_all [greedyMoveScore, Addr.is_depot, Addr.is_waste,
      Addr.is_foundation]

/-- Witness for C5: at the queen onto king layout the coverage theorem
applied at Depot2 onto Depot1 with run length 1 puts the move, at
priority greedyMoveScore Depot2 Depot1 = 0, among the candidates. -/
theorem greedy_seq_coverage_witness :
    ((greedyMoveScore .Depot2 .Depot1, Action.Move .Depot2 .Depot1 1) ∈
        greedySuggestionsP queenKingView ∧
      Action.Move .Depot2 .Depot1 1 ∈ greedySuggestActions queenKingView) ∧
    greedyMoveScore .Depot2 .Depot1 = 0 := by
  constructor
  · exact greedy_seq_coverage.1 queenKingView .Depot2 .Depot1 1 .Clubs 12
      (by decide) (by decide) (by decide) (by decide) (by decide) (by decide)
      (by decide) (by decide)
  · exact greedy_seq_coverage.2.1 .Depot2 .Depot1 (by decide) (by decide)

theorem multiset_ofFn_update_ne {α : Type} [DecidableEq α] {n : Nat}
    (f : Fin n → α) (i : Fin n) (x : α) (hne : x ≠ f i) :
    Multiset.ofList (List.ofFn (Function.update f i x)) ≠ Multiset.ofList (List.ofFn f) := by
  intro h
  have hcount := congrArg (Multiset.count (f i)) h
  rw [Multiset.coe_count, Multiset.coe_count, List.ofFn_eq_map, List.ofFn_eq_map,
    List.count_eq_countP, List.count_eq_countP, List.countP_map, List.countP_map,
    List.Perm.countP_eq _ (List.perm_cons_erase (List.mem_finRange i)),
    List.Perm.countP_eq _ (List.perm_cons_erase (List.mem_finRange i)),
    List.countP_cons, List.countP_cons] at hcount
  have hcongr : List.countP ((fun y => y == f i) ∘ Function.update f i x)
      ((List.finRange n).erase i) =
      List.countP ((fun y => y == f i) ∘ f) ((List.finRange n).erase i) := by
    apply List.countP_congr
    intro j hj
    have hji : j ≠ i := ((List.nodup_finRange n).mem_erase_iff.mp hj).1
    simp [Function.comp, Function.update_noteq hji]
  rw [hcongr] at hcount
  have h1 : ((fun y => y == f i) ∘ Function.update f i x) i = false := by
    simp only [Function.comp_apply, Function.update_same]
    exact beq_eq_false_iff_ne.mpr hne
  have h2 : ((fun y => y == f i) ∘ f) i = true := by
    simp [Function.comp]
  rw [h1, h2] at hcount
  simp at hcount

/-- C8 amended: two observer views that differ only by a permutation of
the 7 columns and of the 4 foundation tops feed the hasher identical data
(equal hashKey), while the derived equality of the view struct is
positional; and replacing a single column by any different sequence, in
particular by a reordering of its cards, changes the view under both the
equality and the hash. -/
theorem hash_perm_invariant_eq_structural :
    (∀ v w : SolitaireObserver, v.talon_size = w.talon_size → v.waste = w.waste →
      (List.ofFn v.foundation_tops).Perm (List.ofFn w.foundation_tops) →
      (List.ofFn v.depots).Perm (List.ofFn w.depots) →
      v.hashKey = w.hashKey) ∧
    (∀ (v : SolitaireObserver) (i : Fin 7) (l : List CardView),
      l.Perm (v.depots i) → l ≠ v.depots i →
      ({ v with depots := Function.update v.depots i l } : SolitaireObserver) ≠ v ∧
      SolitaireObserver.hashKey { v with depots := Function.update v.depots i l } ≠
        v.hashKey) := by
  constructor
  · intro v w h1 h2 hf hd
    have e3 : Multiset.ofList (List.ofFn v.foundation_tops) =
        Multiset.ofList (List.ofFn w.foundation_tops) := Multiset.coe_eq_coe.mpr hf
    have e4 : Multiset.ofList (List.ofFn v.depots) =
        Multiset.ofList (List.ofFn w.depots) := Multiset.coe_eq_coe.mpr hd
    unfold SolitaireObserver.hashKey
    rw [h1, h2, e3, e4]
  · intro v i l _ hne
    constructor
    · intro hEq
      have hdep := congrFun (congrArg SolitaireObserver.depots hEq) i
      simp only [Function.update_same] at hdep
      exact hne hdep
    · intro hEq
      have h4 := congrArg (fun p => p.2.2.2) hEq
      dsimp only [SolitaireObserver.hashKey] at h4
      exact multiset_ofFn_update_ne v.depots i l hne h4

/-- Witness for C8: the column swapped pair permView1, permView2 has
equal hashKey, and reversing the two cards inside column 2 of permView1
yields a view different from permView1 under both the structural equality
and the hashKey. -/
theorem hash_perm_invariant_witness :
    permView1.hashKey = permView2.hashKey ∧
    (({ permView1 with depots := (Function.update permView1.depots 1
          [CardView.FaceDown, CardView.FaceUp .Clubs 12]) } : SolitaireObserver) ≠ permView1 ∧
      SolitaireObserver.hashKey { permView1 with depots := (Function.update permView1.depots 1
          [CardView.FaceDown, CardView.FaceUp .Clubs 12]) } ≠ permView1.hashKey) := by
  constructor
  · exact hash_perm_invariant_eq_structural.1 permView1 permView2
      (by decide) (by decide) (by decide) (by decide)
  · exact hash_perm_invariant_eq_structural.2 permView1 1
      [CardView.FaceDown, CardView.FaceUp .Clubs 12] (by decide) (by decide)

end Solitaire
